import Mathlib

/-!
Shallow embedding of `scripts/add-pagination.py`, a one-off maintenance script
that rewrites a fixed list of UI component files by a sequence of regex
substitutions (Python `re.sub`), guarded by a marker check.

File contents are modelled as `List Char`.  Each Python regex used by the
script is built from a small token language (`RTok`) that covers exactly the
constructs appearing in the script's patterns: literal characters,
one-character classes (`.`, `[...]`, `\s`) and the greedy quantifier `*` over
a one-character class (`x+` is expanded to `x x*`).  The matcher `reMatchG`
implements the greedy (longest-first), leftmost backtracking semantics of the
Python engine on such patterns, and `reSubAux` implements `re.sub`'s global,
leftmost, non-overlapping substitution.  Resource names and variables are
spliced into the patterns as literal characters, which is faithful for the
identifier-shaped names the script uses (no regex metacharacters).
-/

abbrev Str := List Char

def sChars (s : String) : Str := s.data

/-- Python's `\s` class over the ASCII range used by the script's inputs. -/
def isPySpace (c : Char) : Bool :=
  c = ' ' || c = '\t' || c = '\n' || c = '\r' || c = '\x0b' || c = '\x0c'

/-- One token of the tiny regex language: a literal character, a
one-character class, or a greedy `*` over a one-character class. -/
inductive RTok where
  | lit (c : Char)
  | cls (p : Char → Bool)
  | star (p : Char → Bool)

/-- Length of the maximal prefix run of characters satisfying `p`. -/
def runLen (p : Char → Bool) : Str → Nat
  | [] => 0
  | x :: xs => if p x then runLen p xs + 1 else 0

/-- Greedy search for a star: try consuming `k` characters first, then
`k - 1`, ..., down to `0`; `m` matches the remainder of the pattern. -/
def trySt (m : Str → Option Nat) (xs : Str) : Nat → Option Nat
  | 0 => m xs
  | k + 1 =>
      match m (List.drop (k + 1) xs) with
      | some n => some (k + 1 + n)
      | none => trySt m xs k

/-- Backtracking matcher: number of characters consumed by a greedy
(longest-first) match of the token list at the head of the input, or `none`
when the pattern does not match here. -/
def reMatch : List RTok → Str → Option Nat
  | [], _ => some 0
  | RTok.lit _ :: _, [] => none
  | RTok.lit c :: ts, x :: xs => if x = c then (reMatch ts xs).map (· + 1) else none
  | RTok.cls _ :: _, [] => none
  | RTok.cls p :: ts, x :: xs => if p x then (reMatch ts xs).map (· + 1) else none
  | RTok.star p :: ts, xs => trySt (reMatch ts) xs (runLen p xs)

/-- `trySt` for a matcher producing (group length, rest length) pairs. -/
def tryStG (m : Str → Option (Nat × Nat)) (xs : Str) : Nat → Option (Nat × Nat)
  | 0 => m xs
  | k + 1 =>
      match m (List.drop (k + 1) xs) with
      | some q => some (k + 1 + q.1, q.2)
      | none => tryStG m xs k

/-- Matcher for a pattern split as capture-group part followed by rest part
(every pattern of the script has its single group as a prefix).  Returns the
lengths consumed by the group and by the rest. -/
def reMatchG : List RTok → List RTok → Str → Option (Nat × Nat)
  | [], r, xs => (reMatch r xs).map (fun n => (0, n))
  | RTok.lit _ :: _, _, [] => none
  | RTok.lit c :: ts, r, x :: xs =>
      if x = c then (reMatchG ts r xs).map (fun q => (q.1 + 1, q.2)) else none
  | RTok.cls _ :: _, _, [] => none
  | RTok.cls p :: ts, r, x :: xs =>
      if p x then (reMatchG ts r xs).map (fun q => (q.1 + 1, q.2)) else none
  | RTok.star p :: ts, r, xs => tryStG (reMatchG ts r) xs (runLen p xs)

/-- Scanner for `re.sub`, with a structural fuel that is kept at or above the
input length: replace each (non-empty) leftmost match by `repl` applied to
the captured group text, continue after the match, never rescan replacement
text. -/
def reSubGo (g r : List RTok) (repl : Str → Str) : Nat → Str → Str
  | 0, s => s
  | _ + 1, [] => []
  | fuel + 1, x :: xs =>
      match reMatchG g r (x :: xs) with
      | none => x :: reSubGo g r repl fuel xs
      | some (a, b) =>
          if a + b = 0 then x :: reSubGo g r repl fuel xs
          else repl (List.take a (x :: xs)) ++ reSubGo g r repl fuel (List.drop (a + b) (x :: xs))

/-- `re.sub pattern repl s` (global, leftmost, non-overlapping). -/
def reSubAux (g r : List RTok) (repl : Str → Str) (s : Str) : Str :=
  reSubGo g r repl s.length s

/-- Substring test, `needle in haystack` of Python. -/
def containsSub (needle : Str) : Str → Bool
  | [] => needle.isEmpty
  | x :: xs => needle.isPrefixOf (x :: xs) || containsSub needle xs

/-- Number of positions at which `needle` occurs in the haystack. -/
def countSub (needle : Str) : Str → Nat
  | [] => 0
  | x :: xs => (if needle.isPrefixOf (x :: xs) then 1 else 0) + countSub needle xs

def lits (s : String) : List RTok := (sChars s).map RTok.lit

/-- `['\"]` of the script's patterns. -/
def quoteCls : RTok := RTok.cls (fun c => c = '\x27' || c = '\x22')

/-- `.` (any character but a newline), as `.*`. -/
def dotStar : RTok := RTok.star (fun c => !(c = '\n'))

def wsStar : RTok := RTok.star isPySpace

/-- `\s+`, expanded to `\s\s*`. -/
def wsPlus : List RTok := [RTok.cls isPySpace, RTok.star isPySpace]

/-- Pattern `(import.*from\s+['\"]react['\"];)` (group = whole match). -/
def importReactG : List RTok :=
  lits "import" ++ [dotStar] ++ lits "from" ++ wsPlus ++ [quoteCls] ++
    lits "react" ++ [quoteCls, RTok.lit ';']

/-- Group part of `(import\s+\{[^}]*)\}\s+from\s+['\"]react['\"];`. -/
def braceImportG : List RTok :=
  lits "import" ++ wsPlus ++ [RTok.lit '\x7b', RTok.star (fun c => !(c = '\x7d'))]

/-- Rest part of `(import\s+\{[^}]*)\}\s+from\s+['\"]react['\"];`. -/
def braceImportR : List RTok :=
  [RTok.lit '\x7d'] ++ wsPlus ++ lits "from" ++ wsPlus ++ [quoteCls] ++
    lits "react" ++ [quoteCls, RTok.lit ';']

/-- Pattern `(import.*from\s+['\"].*types['\"];)` (group = whole match). -/
def typesImportG : List RTok :=
  lits "import" ++ [dotStar] ++ lits "from" ++ wsPlus ++ [quoteCls, dotStar] ++
    lits "types" ++ [quoteCls, RTok.lit ';']

/-- Pattern `(export default function <name>\(\)\s*\{)` (group = whole match). -/
def componentG (name : String) : List RTok :=
  lits "export default function " ++ lits name ++ lits "()" ++ [wsStar, RTok.lit '\x7b']

/-- Pattern `(const <var> = data\?\.items \?\? \[\];)` (all literal). -/
def itemsG (var : String) : List RTok :=
  lits "const " ++ lits var ++ lits " = data?.items ?? [];"

/-- Pattern `\{<var>\.map\(` (all literal, no group used). -/
def mapG (var : String) : List RTok :=
  [RTok.lit '\x7b'] ++ lits var ++ lits ".map("

/-- Pattern `(\s*</div>\s*</div>\s*\);\s*\})` (group = whole match). -/
def endG : List RTok :=
  [wsStar] ++ lits "</div>" ++ [wsStar] ++ lits "</div>" ++ [wsStar] ++
    lits ");" ++ [wsStar, RTok.lit '\x7d']

/-- The replacement line used when no `useState` is present. -/
def bothHooksImport : Str := sChars "import \x7b useState, useEffect \x7d from 'react';"

/-- The pagination component import line; `Nodes` gets the one-level
shallower relative path, every other resource the deeper one. -/
def paginationImport (name : String) : Str :=
  if name = "Nodes" then
    sChars "import Pagination from '../../components/common/Pagination';"
  else
    sChars "import Pagination from '../../../components/common/Pagination';"

/-- The two state declarations inserted after the component's opening brace. -/
def stateVarsBase : Str :=
  sChars "\n  const [currentPage, setCurrentPage] = useState(1);\n  const [pageSize, setPageSize] = useState(20);\n"

/-- The namespace-reset effect appended when the buffer mentions
`currentNamespace`. -/
def nsEffect : Str :=
  sChars "\n  // 命名空间变化时重置页码\n  useEffect(() => \x7b\n    setCurrentPage(1);\n  \x7d, [currentNamespace]);\n"

def stateVars (hasNs : Bool) : Str :=
  stateVarsBase ++ (if hasNs then nsEffect else [])

/-- The pagination-math block (text after the `\1` back-reference). -/
def paginationLogic (name var : String) : Str :=
  sChars "\n\n  // 分页逻辑\n  const totalItems = " ++ sChars var ++
  sChars ".length;\n  const totalPages = Math.ceil(totalItems / pageSize);\n  const startIndex = (currentPage - 1) * pageSize;\n  const endIndex = startIndex + pageSize;\n  const current" ++
  sChars name ++ sChars " = " ++ sChars var ++
  sChars ".slice(startIndex, endIndex);\n\n  const handlePageChange = (page: number) => \x7b\n    setCurrentPage(page);\n  \x7d;\n\n  const handlePageSizeChange = (size: number) => \x7b\n    setPageSize(size);\n    setCurrentPage(1);\n  \x7d;\n"

/-- The replacement for the final-markup pattern: the conditional pagination
UI block followed by one closing `</div>`, `);` and the function brace. -/
def paginationComponent : Str :=
  sChars "\n      \x7b/* 分页 */\x7d\n      \x7btotalPages > 1 && (\n        <Pagination\n          currentPage=\x7bcurrentPage\x7d\n          totalPages=\x7btotalPages\x7d\n          totalItems=\x7btotalItems\x7d\n          pageSize=\x7bpageSize\x7d\n          onPageChange=\x7bhandlePageChange\x7d\n          onPageSizeChange=\x7bhandlePageSizeChange\x7d\n        />\n      )\x7d\n    </div>\n  );\n\x7d"

/-- `'Pagination' in content or 'currentPage' in content`. -/
def hasMarkers (content : Str) : Bool :=
  containsSub (sChars "Pagination") content || containsSub (sChars "currentPage") content

/-- Step 1a/1b: the react-import rewriting branches. -/
def applyReactImport (content : Str) : Str :=
  if containsSub (sChars "useState") content = false then
    reSubAux importReactG [] (fun _ => bothHooksImport) content
  else if containsSub (sChars "useEffect") content = false then
    reSubAux braceImportG braceImportR (fun g => g ++ sChars ", useEffect \x7d from 'react';") content
  else content

/-- Step 1c: insert the pagination component import after the types import. -/
def applyTypesImport (name : String) (content : Str) : Str :=
  reSubAux typesImportG [] (fun g => g ++ '\n' :: paginationImport name) content

/-- Step 2: insert the state declarations (and conditionally the
namespace-reset effect) after the component function's opening brace. -/
def applyStateVars (name : String) (content : Str) : Str :=
  reSubAux (componentG name) []
    (fun g => g ++ stateVars (containsSub (sChars "currentNamespace") content)) content

/-- Step 3: insert the pagination-math block after the items binding. -/
def applyItems (name var : String) (content : Str) : Str :=
  reSubAux (itemsG var) [] (fun g => g ++ paginationLogic name var) content

/-- Step 4: rewrite the map call to use the paginated slice. -/
def applyMap (name var : String) (content : Str) : Str :=
  reSubAux (mapG var) [] (fun _ => '\x7b' :: (sChars "current" ++ sChars name ++ sChars ".map(")) content

/-- Step 5: replace the closing markup sequence by the pagination UI block. -/
def applyEnd (content : Str) : Str :=
  reSubAux endG [] (fun _ => paginationComponent) content

/-- The full in-memory transformation sequence, in source order. -/
def transform (name var : String) (content : Str) : Str :=
  applyEnd (applyMap name var (applyItems name var
    (applyStateVars name (applyTypesImport name (applyReactImport content)))))

inductive Outcome where
  | patched
  | skipped
  deriving DecidableEq

/-- Result of one `add_pagination_to_file` call: the returned outcome
(`True`/`False` in the script), whether `write_text` ran, and the file's
content after the call. -/
structure FileRun where
  outcome : Outcome
  written : Bool
  fileAfter : Str
  deriving DecidableEq

/-- `add_pagination_to_file`: marker guard, then the five transformation
steps and the write-back. -/
def add_pagination_to_file (name var : String) (content : Str) : FileRun :=
  if hasMarkers content then
    { outcome := Outcome.skipped, written := false, fileAfter := content }
  else
    { outcome := Outcome.patched, written := true, fileAfter := transform name var content }

/-- The hard-coded driver list (path, resource name, resource variable). -/
def files_to_process : List (String × String × String) :=
  [("frontend/src/pages/network/services/Services.tsx", "Services", "services"),
   ("frontend/src/pages/workloads/statefulsets/StatefulSets.tsx", "StatefulSets", "statefulSets"),
   ("frontend/src/pages/workloads/daemonsets/DaemonSets.tsx", "DaemonSets", "daemonSets"),
   ("frontend/src/pages/workloads/jobs/Jobs.tsx", "Jobs", "jobs"),
   ("frontend/src/pages/workloads/jobs/CronJobs.tsx", "CronJobs", "cronJobs"),
   ("frontend/src/pages/network/ingresses/Ingresses.tsx", "Ingresses", "ingresses"),
   ("frontend/src/pages/config/configmaps/ConfigMaps.tsx", "ConfigMaps", "configMaps"),
   ("frontend/src/pages/config/secrets/Secrets.tsx", "Secrets", "secrets")]

/-- Environment event for one driver iteration: the path is missing, the
patcher raises (an IO or unexpected failure caught by the driver's
`except`), or the file exists with the given content. -/
inductive DriverEvent where
  | missing
  | raises
  | found (content : Str)

/-- The driver's three counters. -/
structure Counts where
  success : Nat
  skip : Nat
  error : Nat
  deriving DecidableEq

def counts0 : Counts := { success := 0, skip := 0, error := 0 }

/-- One driver iteration: missing path or a raised exception increments the
error counter; otherwise the patcher's returned outcome decides between the
success and skip counters. -/
def driverStep (entry : String × String × String) (c : Counts) : DriverEvent → Counts
  | DriverEvent.missing => { c with error := c.error + 1 }
  | DriverEvent.raises => { c with error := c.error + 1 }
  | DriverEvent.found content =>
      match (add_pagination_to_file entry.2.1 entry.2.2 content).outcome with
      | Outcome.patched => { c with success := c.success + 1 }
      | Outcome.skipped => { c with skip := c.skip + 1 }

/-- The driver loop over the spec list and the per-entry environment events. -/
def runDriverFrom (c : Counts) : List (String × String × String) → List DriverEvent → Counts
  | [], _ => c
  | t :: ts, es =>
      match es with
      | [] => c
      | e :: es => runDriverFrom (driverStep t c e) ts es

/-- `noMatchAll g r s`: the pattern matches at no position of `s`. -/
def noMatchAll (g r : List RTok) : Str → Bool
  | [] => true
  | x :: xs => (reMatchG g r (x :: xs)).isNone && noMatchAll g r xs

/-- `noMatchBefore g r k s`: the pattern matches at none of the first `k`
positions of `s`. -/
def noMatchBefore (g r : List RTok) : Nat → Str → Bool
  | 0, _ => true
  | k + 1, s => (reMatchG g r s).isNone && noMatchBefore g r k s.tail

/-- Pointwise order on the driver counters. -/
def countsLe (c d : Counts) : Prop :=
  c.success ≤ d.success ∧ c.skip ≤ d.skip ∧ c.error ≤ d.error

/-- The closing markup sequence of the spec's step-6 pattern. -/
def closeSeq : Str := sChars "</div></div>); \x7d"

/-- The reactive namespace-reset effect (the part of `nsEffect` past its
leading comment line). -/
def effectCore : Str := sChars "useEffect(() => \x7b\n    setCurrentPage(1);\n  \x7d, [currentNamespace]);"

/-- The spec's end-to-end stub file: a react import line, a types import
line, and the one-line `Jobs` component. -/
def jobsStub : Str :=
  sChars "import React from 'react';\nimport \x7b Job \x7d from '../../../types';\n\nexport default function Jobs() \x7b const jobs = data?.items ?? []; return (<div><div>\x7bjobs.map(j => <Row key=\x7bj.id\x7d/>)\x7d</div></div>); \x7d\n"

/-- The stub after one patcher run. -/
def jobsPatched : Str := (add_pagination_to_file "Jobs" "jobs" jobsStub).fileAfter

/-! ### Basic bounds on the matcher -/

theorem runLen_le (p : Char → Bool) : ∀ xs : Str, runLen p xs ≤ xs.length := by
  intro xs
  induction xs with
  | nil => simp [runLen]
  | cons x xs ih =>
      simp only [runLen, List.length_cons]
      split <;> omega

theorem trySt_le (m : Str → Option Nat) (hm : ∀ ys n, m ys = some n → n ≤ ys.length) :
    ∀ (k : Nat) (xs : Str) (n : Nat), k ≤ xs.length → trySt m xs k = some n → n ≤ xs.length := by
  intro k
  induction k with
  | zero => intro xs n _ h; exact hm xs n h
  | succ k ih =>
      intro xs n hk h
      simp only [trySt] at h
      cases hd : m (List.drop (k + 1) xs) with
      | none => rw [hd] at h; exact ih xs n (by omega) h
      | some n' =>
          rw [hd] at h
          have hb := hm _ _ hd
          simp only [List.length_drop] at hb
          simp only [Option.some.injEq] at h
          omega

theorem reMatch_le : ∀ (ts : List RTok) (xs : Str) (n : Nat),
    reMatch ts xs = some n → n ≤ xs.length := by
  intro ts
  induction ts with
  | nil => intro xs n h; simp only [reMatch, Option.some.injEq] at h; omega
  | cons t ts ih =>
      intro xs n h
      cases t with
      | lit c =>
          cases xs with
          | nil => exact absurd h (by simp [reMatch])
          | cons x xs =>
              simp only [reMatch] at h
              by_cases hc : x = c
              · rw [if_pos hc] at h
                cases hr : reMatch ts xs with
                | none => rw [hr] at h; simp at h
                | some m =>
                    rw [hr] at h
                    simp only [Option.map, Option.some.injEq] at h
                    have := ih xs m hr
                    simp only [List.length_cons]
                    omega
              · rw [if_neg hc] at h; simp at h
      | cls p =>
          cases xs with
          | nil => exact absurd h (by simp [reMatch])
          | cons x xs =>
              simp only [reMatch] at h
              by_cases hc : p x
              · rw [if_pos hc] at h
                cases hr : reMatch ts xs with
                | none => rw [hr] at h; simp at h
                | some m =>
                    rw [hr] at h
                    simp only [Option.map, Option.some.injEq] at h
                    have := ih xs m hr
                    simp only [List.length_cons]
                    omega
              · rw [if_neg hc] at h; simp at h
      | star p =>
          simp only [reMatch] at h
          exact trySt_le (reMatch ts) (fun ys n hy => ih ys n hy) _ xs n (runLen_le p xs) h

theorem tryStG_le (m : Str → Option (Nat × Nat))
    (hm : ∀ ys q, m ys = some q → q.1 + q.2 ≤ ys.length) :
    ∀ (k : Nat) (xs : Str) (q : Nat × Nat), k ≤ xs.length → tryStG m xs k = some q →
      q.1 + q.2 ≤ xs.length := by
  intro k
  induction k with
  | zero => intro xs q _ h; exact hm xs q h
  | succ k ih =>
      intro xs q hk h
      simp only [tryStG] at h
      cases hd : m (List.drop (k + 1) xs) with
      | none => rw [hd] at h; exact ih xs q (by omega) h
      | some q' =>
          rw [hd] at h
          have hb := hm _ _ hd
          simp only [List.length_drop] at hb
          obtain ⟨qa, qb⟩ := q
          simp only [Option.some.injEq, Prod.mk.injEq] at h
          simp only []
          omega

theorem reMatchG_le : ∀ (g r : List RTok) (xs : Str) (q : Nat × Nat),
    reMatchG g r xs = some q → q.1 + q.2 ≤ xs.length := by
  intro g
  induction g with
  | nil =>
      intro r xs q h
      simp only [reMatchG] at h
      cases hr : reMatch r xs with
      | none => rw [hr] at h; simp at h
      | some n =>
          rw [hr] at h
          simp only [Option.map, Option.some.injEq] at h
          have := reMatch_le r xs n hr
          obtain ⟨qa, qb⟩ := q
          simp only [Prod.mk.injEq] at h
          simp only []
          omega
  | cons t ts ih =>
      intro r xs q h
      cases t with
      | lit c =>
          cases xs with
          | nil => exact absurd h (by simp [reMatchG])
          | cons x xs =>
              simp only [reMatchG] at h
              by_cases hc : x = c
              · rw [if_pos hc] at h
                cases hr : reMatchG ts r xs with
                | none => rw [hr] at h; simp at h
                | some q' =>
                    rw [hr] at h
                    have := ih r xs q' hr
                    obtain ⟨qa, qb⟩ := q
                    simp only [Option.map, Option.some.injEq, Prod.mk.injEq] at h
                    simp only [List.length_cons]
                    omega
              · rw [if_neg hc] at h; simp at h
      | cls p =>
          cases xs with
          | nil => exact absurd h (by simp [reMatchG])
          | cons x xs =>
              simp only [reMatchG] at h
              by_cases hc : p x
              · rw [if_pos hc] at h
                cases hr : reMatchG ts r xs with
                | none => rw [hr] at h; simp at h
                | some q' =>
                    rw [hr] at h
                    have := ih r xs q' hr
                    obtain ⟨qa, qb⟩ := q
                    simp only [Option.map, Option.some.injEq, Prod.mk.injEq] at h
                    simp only [List.length_cons]
                    omega
              · rw [if_neg hc] at h; simp at h
      | star p =>
          simp only [reMatchG] at h
          exact tryStG_le (reMatchG ts r) (fun ys q hy => ih r ys q hy) _ xs q (runLen_le p xs) h

/-! ### Step equations for the substitution scanner -/

theorem reSubGo_fuel (g r : List RTok) (repl : Str → Str) :
    ∀ (f1 f2 : Nat) (s : Str), s.length ≤ f1 → s.length ≤ f2 →
      reSubGo g r repl f1 s = reSubGo g r repl f2 s := by
  intro f1
  induction f1 with
  | zero =>
      intro f2 s h1 _
      have : s = [] := List.eq_nil_of_length_eq_zero (by omega)
      subst this
      cases f2 <;> simp [reSubGo]
  | succ f1 ih =>
      intro f2 s h1 h2
      cases s with
      | nil => cases f2 <;> simp [reSubGo]
      | cons x xs =>
          cases f2 with
          | zero => simp at h2
          | succ f2 =>
              simp only [reSubGo]
              cases hm : reMatchG g r (x :: xs) with
              | none =>
                  simp only [List.length_cons] at h1 h2
                  rw [ih f2 xs (by omega) (by omega)]
              | some q =>
                  obtain ⟨a, b⟩ := q
                  dsimp only
                  by_cases hab : a + b = 0
                  · rw [if_pos hab, if_pos hab]
                    simp only [List.length_cons] at h1 h2
                    rw [ih f2 xs (by omega) (by omega)]
                  · rw [if_neg hab, if_neg hab]
                    simp only [List.length_cons] at h1 h2
                    have hlen : (List.drop (a + b) (x :: xs)).length ≤ xs.length := by
                      simp only [List.length_drop, List.length_cons]
                      omega
                    rw [ih f2 (List.drop (a + b) (x :: xs)) (by omega) (by omega)]

theorem reSubAux_nil (g r : List RTok) (repl : Str → Str) : reSubAux g r repl [] = [] := rfl

theorem reSubAux_cons_none (g r : List RTok) (repl : Str → Str) (x : Char) (xs : Str)
    (h : reMatchG g r (x :: xs) = none) :
    reSubAux g r repl (x :: xs) = x :: reSubAux g r repl xs := by
  simp only [reSubAux, List.length_cons, reSubGo, h]

theorem reSubAux_cons_some (g r : List RTok) (repl : Str → Str) (x : Char) (xs : Str)
    (a b : Nat) (h : reMatchG g r (x :: xs) = some (a, b)) (hab : 0 < a + b) :
    reSubAux g r repl (x :: xs) =
      repl (List.take a (x :: xs)) ++ reSubAux g r repl (List.drop (a + b) (x :: xs)) := by
  simp only [reSubAux, List.length_cons, reSubGo, h]
  rw [if_neg (by omega)]
  have hf : (List.drop (a + b) (x :: xs)).length ≤ xs.length := by
    simp only [List.length_drop, List.length_cons]
    omega
  rw [reSubGo_fuel g r repl xs.length (List.drop (a + b) (x :: xs)).length _ hf (by omega)]

/-! ### A pattern matching nowhere substitutes nothing -/

theorem reSub_id (g r : List RTok) (repl : Str → Str) :
    ∀ s : Str, noMatchAll g r s = true → reSubAux g r repl s = s := by
  intro s
  induction s with
  | nil => intro _; rfl
  | cons x xs ih =>
      intro h
      simp only [noMatchAll, Bool.and_eq_true, Option.isNone_iff_eq_none] at h
      rw [reSubAux_cons_none g r repl x xs h.1, ih h.2]

/-! ### Substitution at the leftmost match -/

theorem reSub_first (g r : List RTok) (repl : Str → Str) :
    ∀ (pre rest : Str) (a b : Nat),
      noMatchBefore g r pre.length (pre ++ rest) = true →
      reMatchG g r rest = some (a, b) → 0 < a + b →
      reSubAux g r repl (pre ++ rest) =
        pre ++ repl (List.take a rest) ++ reSubAux g r repl (List.drop (a + b) rest) := by
  intro pre
  induction pre with
  | nil =>
      intro rest a b _ hm hab
      cases rest with
      | nil =>
          have := reMatchG_le g r [] (a, b) hm
          simp at this
          omega
      | cons x xs =>
          simp only [List.nil_append]
          exact reSubAux_cons_some g r repl x xs a b hm hab
  | cons p ps ih =>
      intro rest a b hpre hm hab
      simp only [List.length_cons, List.cons_append, noMatchBefore, Bool.and_eq_true,
        Option.isNone_iff_eq_none, List.tail_cons] at hpre
      rw [List.cons_append, reSubAux_cons_none g r repl p (ps ++ rest) hpre.1,
        ih rest a b hpre.2 hm hab]
      simp

/-! ### Substring monotonicity -/

theorem containsSub_nil_needle : ∀ t : Str, containsSub [] t = true := by
  intro t
  cases t with
  | nil => rfl
  | cons x xs => simp [containsSub, List.isPrefixOf]

theorem isPrefixOf_append_right (n s t : Str) (h : n.isPrefixOf s = true) :
    n.isPrefixOf (s ++ t) = true := by
  rw [List.isPrefixOf_iff_prefix] at h ⊢
  exact h.trans (s.prefix_append t)

theorem containsSub_append_left (n : Str) :
    ∀ s t : Str, containsSub n s = true → containsSub n (s ++ t) = true := by
  intro s
  induction s with
  | nil =>
      intro t h
      simp only [containsSub, List.isEmpty_iff] at h
      subst h
      exact containsSub_nil_needle t
  | cons x xs ih =>
      intro t h
      simp only [containsSub, Bool.or_eq_true] at h ⊢
      cases h with
      | inl h => exact Or.inl (isPrefixOf_append_right n (x :: xs) t h)
      | inr h => exact Or.inr (ih t h)

theorem containsSub_append_right (n : Str) :
    ∀ s t : Str, containsSub n t = true → containsSub n (s ++ t) = true := by
  intro s
  induction s with
  | nil => intro t h; simpa using h
  | cons x xs ih =>
      intro t h
      simp only [List.cons_append, containsSub, Bool.or_eq_true]
      exact Or.inr (ih t h)

set_option maxRecDepth 4000000

/-! ### Claim theorems -/

/-- C2: patching the spec's end-to-end stub with resource name `Jobs` and
resource variable `jobs` takes the patched branch and yields a buffer
containing the both-hooks react import, the pagination component import, the
two new state declarations, the pagination-math binding `currentJobs`, a map
call over `currentJobs` and none over `jobs`, and the conditional pagination
UI block followed by the final closing tags. -/
theorem c2_end_to_end_stub :
    (add_pagination_to_file "Jobs" "jobs" jobsStub).outcome = Outcome.patched ∧
    containsSub (sChars "useState") jobsPatched = true ∧
    containsSub (sChars "useEffect") jobsPatched = true ∧
    containsSub bothHooksImport jobsPatched = true ∧
    containsSub (paginationImport "Jobs") jobsPatched = true ∧
    containsSub (sChars "const [currentPage, setCurrentPage] = useState(1);") jobsPatched = true ∧
    containsSub (sChars "const [pageSize, setPageSize] = useState(20);") jobsPatched = true ∧
    containsSub (sChars "const currentJobs = jobs.slice(startIndex, endIndex);") jobsPatched = true ∧
    containsSub (sChars "\x7bcurrentJobs.map(") jobsPatched = true ∧
    containsSub (sChars "jobs.map(") jobsPatched = false ∧
    containsSub paginationComponent jobsPatched = true := by
  decide

theorem markerGuard (name var : String) (content : Str) (h : hasMarkers content = true) :
    add_pagination_to_file name var content =
      { outcome := Outcome.skipped, written := false, fileAfter := content } := by
  unfold add_pagination_to_file
  rw [if_pos h]

/-- C4: a buffer containing one of the pagination markers is skipped
immediately: the outcome is `Skipped`, no write occurs, and the file bytes
are exactly the input bytes. -/
theorem c4_marker_guard_skips (name var : String) (content : Str)
    (h : hasMarkers content = true) :
    add_pagination_to_file name var content =
      { outcome := Outcome.skipped, written := false, fileAfter := content } :=
  markerGuard name var content h

theorem c4_marker_guard_skips_witness :
    hasMarkers (sChars "const page = currentPage + 1;") = true ∧
    add_pagination_to_file "Jobs" "jobs" (sChars "const page = currentPage + 1;") =
      { outcome := Outcome.skipped, written := false,
        fileAfter := sChars "const page = currentPage + 1;" } :=
  ⟨by decide, c4_marker_guard_skips "Jobs" "jobs" (sChars "const page = currentPage + 1;") (by decide)⟩

/-- C3 (amended): whenever the first patch run leaves a pagination marker in
the file — which happens exactly when some marker-inserting step fired — the
second run takes the `Skipped` outcome and returns the same content, so
running twice equals running once; the counterexample shows the second run
is not a skip for e.g. the empty file. -/
theorem c3_second_run_skips_after_marker (name var : String) (content : Str)
    (h : hasMarkers (add_pagination_to_file name var content).fileAfter = true) :
    (add_pagination_to_file name var
        (add_pagination_to_file name var content).fileAfter).outcome = Outcome.skipped ∧
    (add_pagination_to_file name var
        (add_pagination_to_file name var content).fileAfter).fileAfter =
      (add_pagination_to_file name var content).fileAfter := by
  rw [markerGuard name var _ h]
  exact ⟨rfl, rfl⟩

theorem c3_second_run_skips_after_marker_witness :
    hasMarkers (add_pagination_to_file "Jobs" "jobs" jobsStub).fileAfter = true ∧
    ((add_pagination_to_file "Jobs" "jobs"
        (add_pagination_to_file "Jobs" "jobs" jobsStub).fileAfter).outcome = Outcome.skipped ∧
     (add_pagination_to_file "Jobs" "jobs"
        (add_pagination_to_file "Jobs" "jobs" jobsStub).fileAfter).fileAfter =
       (add_pagination_to_file "Jobs" "jobs" jobsStub).fileAfter) :=
  ⟨by decide, c3_second_run_skips_after_marker "Jobs" "jobs" jobsStub (by decide)⟩

/-- C3 (counterexample): on the empty file the first run is `Patched` (it
writes the unchanged buffer back and returns `True`), and the second run is
`Patched` again, not the `Skip` the claim requires. -/
theorem c3_counterexample :
    (add_pagination_to_file "Jobs" "jobs" []).outcome = Outcome.patched ∧
    (add_pagination_to_file "Jobs" "jobs"
        (add_pagination_to_file "Jobs" "jobs" []).fileAfter).outcome = Outcome.patched ∧
    ¬((add_pagination_to_file "Jobs" "jobs"
        (add_pagination_to_file "Jobs" "jobs" []).fileAfter).outcome = Outcome.skipped) := by
  decide

/-- C6: a transformation step whose anchor pattern matches nowhere in its
buffer is a silent no-op (the substitution returns the buffer unchanged and,
the functions being total, no exception arises), while the patcher still
reports `Patched`, performs the write, and writes exactly the (possibly
partially transformed) result of the five steps. -/
theorem c6_unmatched_anchor_silent_noop (g r : List RTok) (repl : Str → Str) (s : Str)
    (name var : String) (content : Str)
    (h1 : noMatchAll g r s = true) (h2 : hasMarkers content = false) :
    reSubAux g r repl s = s ∧
    (add_pagination_to_file name var content).outcome = Outcome.patched ∧
    (add_pagination_to_file name var content).written = true ∧
    (add_pagination_to_file name var content).fileAfter = transform name var content := by
  have hrun : add_pagination_to_file name var content =
      { outcome := Outcome.patched, written := true, fileAfter := transform name var content } := by
    unfold add_pagination_to_file
    rw [if_neg (by simp [h2])]
  exact ⟨reSub_id g r repl s h1, by rw [hrun], by rw [hrun], by rw [hrun]⟩

theorem c6_unmatched_anchor_silent_noop_witness :
    noMatchAll (itemsG "jobs") [] (sChars "export default function Jobs() \x7b return null; \x7d") = true ∧
    hasMarkers (sChars "export default function Jobs() \x7b return null; \x7d") = false ∧
    (reSubAux (itemsG "jobs") [] (fun g => g ++ paginationLogic "Jobs" "jobs")
        (sChars "export default function Jobs() \x7b return null; \x7d") =
      sChars "export default function Jobs() \x7b return null; \x7d" ∧
     (add_pagination_to_file "Jobs" "jobs"
        (sChars "export default function Jobs() \x7b return null; \x7d")).outcome = Outcome.patched ∧
     (add_pagination_to_file "Jobs" "jobs"
        (sChars "export default function Jobs() \x7b return null; \x7d")).written = true ∧
     (add_pagination_to_file "Jobs" "jobs"
        (sChars "export default function Jobs() \x7b return null; \x7d")).fileAfter =
       transform "Jobs" "jobs" (sChars "export default function Jobs() \x7b return null; \x7d")) :=
  ⟨by decide, by decide,
    c6_unmatched_anchor_silent_noop (itemsG "jobs") [] (fun g => g ++ paginationLogic "Jobs" "jobs")
      (sChars "export default function Jobs() \x7b return null; \x7d") "Jobs" "jobs"
      (sChars "export default function Jobs() \x7b return null; \x7d") (by decide) (by decide)⟩

/-- C1 (amended): when the leftmost match of the closing-markup pattern is
the closing sequence `</div></div>); }` itself, the injection step rewrites
it into the conditional pagination UI block followed by a single closing
container tag, the expression terminator and the function brace: only one of
the two matched `</div>` tags reappears (with fixed indentation), not a
re-emission of the original sequence. -/
theorem c1_ui_injection_rewrite (pre : Str)
    (h : noMatchBefore endG [] pre.length (pre ++ closeSeq) = true) :
    applyEnd (pre ++ closeSeq) = pre ++ paginationComponent ∧
    countSub (sChars "</div>") paginationComponent = 1 := by
  constructor
  · have hm : reMatchG endG [] closeSeq = some (16, 0) := by decide
    unfold applyEnd
    rw [reSub_first endG [] (fun _ => paginationComponent) pre closeSeq 16 0 h hm (by omega)]
    have hdrop : List.drop (16 + 0) closeSeq = [] := by decide
    rw [hdrop, reSubAux_nil]
    simp
  · decide

theorem c1_ui_injection_rewrite_witness :
    noMatchBefore endG [] (sChars "<div>x").length ((sChars "<div>x") ++ closeSeq) = true ∧
    (applyEnd ((sChars "<div>x") ++ closeSeq) = (sChars "<div>x") ++ paginationComponent ∧
     countSub (sChars "</div>") paginationComponent = 1) :=
  ⟨by decide, c1_ui_injection_rewrite (sChars "<div>x") (by decide)⟩

/-- C1 (counterexample): on a buffer ending in the closing sequence, the
rewritten buffer contains only one `</div>` and no longer contains the
original sequence `</div></div>); }`, so the claim's re-emission of both
nested closing tags fails. -/
theorem c1_counterexample :
    countSub (sChars "</div>") (applyEnd (sChars "<div>x</div></div>); \x7d")) = 1 ∧
    countSub (sChars "</div>") (sChars "<div>x</div></div>); \x7d") = 2 ∧
    containsSub closeSeq (applyEnd (sChars "<div>x</div></div>); \x7d")) = false ∧
    containsSub closeSeq (sChars "<div>x</div></div>); \x7d") = true := by
  decide

/-- C5 (amended): the namespace-reset effect is tied to both the presence of
`currentNamespace` and a match of the component-function anchor: when the
anchor matches and the pre-patch buffer contains `currentNamespace`, the
output contains the reset effect; when the anchor matches and the buffer
does not contain it, the inserted block is exactly the two state
declarations, which do not contain the effect.  (The claim's unconditional
iff fails when the anchor does not match; see the counterexample.) -/
theorem c5_namespace_effect_conditional (name : String)
    (pre1 rest1 : Str) (a1 b1 : Nat) (pre2 rest2 : Str) (a2 b2 : Nat)
    (h1 : noMatchBefore (componentG name) [] pre1.length (pre1 ++ rest1) = true)
    (h2 : reMatchG (componentG name) [] rest1 = some (a1, b1))
    (h3 : 0 < a1 + b1)
    (h4 : containsSub (sChars "currentNamespace") (pre1 ++ rest1) = true)
    (h5 : noMatchBefore (componentG name) [] pre2.length (pre2 ++ rest2) = true)
    (h6 : reMatchG (componentG name) [] rest2 = some (a2, b2))
    (h7 : 0 < a2 + b2)
    (h8 : containsSub (sChars "currentNamespace") (pre2 ++ rest2) = false) :
    containsSub effectCore (applyStateVars name (pre1 ++ rest1)) = true ∧
    applyStateVars name (pre2 ++ rest2) =
      pre2 ++ (List.take a2 rest2 ++ stateVarsBase) ++
        reSubAux (componentG name) [] (fun g => g ++ stateVars false)
          (List.drop (a2 + b2) rest2) ∧
    containsSub effectCore stateVarsBase = false := by
  refine ⟨?_, ?_, by decide⟩
  · unfold applyStateVars
    simp only [h4]
    rw [reSub_first (componentG name) [] (fun g => g ++ stateVars true) pre1 rest1 a1 b1 h1 h2 h3]
    apply containsSub_append_left
    apply containsSub_append_right
    apply containsSub_append_right
    decide
  · unfold applyStateVars
    simp only [h8]
    rw [reSub_first (componentG name) [] (fun g => g ++ stateVars false) pre2 rest2 a2 b2 h5 h6 h7]
    simp [stateVars]

theorem c5_namespace_effect_conditional_witness :
    noMatchBefore (componentG "Jobs") [] (0 : Nat)
        (([] : Str) ++ sChars "export default function Jobs() \x7b currentNamespace") = true ∧
    reMatchG (componentG "Jobs") []
        (sChars "export default function Jobs() \x7b currentNamespace") = some (32, 0) ∧
    (0 : Nat) < 32 + 0 ∧
    containsSub (sChars "currentNamespace")
        (([] : Str) ++ sChars "export default function Jobs() \x7b currentNamespace") = true ∧
    noMatchBefore (componentG "Jobs") [] (0 : Nat)
        (([] : Str) ++ sChars "export default function Jobs() \x7b x") = true ∧
    reMatchG (componentG "Jobs") [] (sChars "export default function Jobs() \x7b x") = some (32, 0) ∧
    (0 : Nat) < 32 + 0 ∧
    containsSub (sChars "currentNamespace")
        (([] : Str) ++ sChars "export default function Jobs() \x7b x") = false ∧
    (containsSub effectCore
        (applyStateVars "Jobs" (([] : Str) ++ sChars "export default function Jobs() \x7b currentNamespace")) = true ∧
     applyStateVars "Jobs" (([] : Str) ++ sChars "export default function Jobs() \x7b x") =
       ([] : Str) ++ (List.take 32 (sChars "export default function Jobs() \x7b x") ++ stateVarsBase) ++
         reSubAux (componentG "Jobs") [] (fun g => g ++ stateVars false)
           (List.drop (32 + 0) (sChars "export default function Jobs() \x7b x")) ∧
     containsSub effectCore stateVarsBase = false) :=
  ⟨by decide, by decide, by decide, by decide, by decide, by decide, by decide, by decide,
    c5_namespace_effect_conditional "Jobs"
      [] (sChars "export default function Jobs() \x7b currentNamespace") 32 0
      [] (sChars "export default function Jobs() \x7b x") 32 0
      (by decide) (by decide) (by decide) (by decide)
      (by decide) (by decide) (by decide) (by decide)⟩

/-- C5 (counterexample): a patched buffer that contains `currentNamespace`
but no component-anchor match receives no reset effect, refuting the
claim's iff. -/
theorem c5_counterexample :
    (add_pagination_to_file "Jobs" "jobs" (sChars "const x = currentNamespace;")).outcome =
      Outcome.patched ∧
    containsSub (sChars "currentNamespace") (sChars "const x = currentNamespace;") = true ∧
    containsSub effectCore
      ((add_pagination_to_file "Jobs" "jobs" (sChars "const x = currentNamespace;")).fileAfter) =
      false := by
  decide

/-- C7: when the buffer has no `useState`, the import step replaces the
first react-import match wholesale by the single line importing both hooks
(continuing the scan after it); when the buffer has `useState` but no
`useEffect`, it instead keeps the matched `import { <names>` group verbatim
and appends `, useEffect } from 'react';`, leaving the other imported names
intact. -/
theorem c7_react_import_branches
    (c1pre c1rest : Str) (a1 : Nat) (c2pre c2rest : Str) (a2 b2 : Nat)
    (h1 : containsSub (sChars "useState") (c1pre ++ c1rest) = false)
    (h2 : noMatchBefore importReactG [] c1pre.length (c1pre ++ c1rest) = true)
    (h3 : reMatchG importReactG [] c1rest = some (a1, 0))
    (h4 : 0 < a1)
    (h5 : containsSub (sChars "useState") (c2pre ++ c2rest) = true)
    (h6 : containsSub (sChars "useEffect") (c2pre ++ c2rest) = false)
    (h7 : noMatchBefore braceImportG braceImportR c2pre.length (c2pre ++ c2rest) = true)
    (h8 : reMatchG braceImportG braceImportR c2rest = some (a2, b2))
    (h9 : 0 < a2 + b2) :
    applyReactImport (c1pre ++ c1rest) =
      c1pre ++ bothHooksImport ++
        reSubAux importReactG [] (fun _ => bothHooksImport) (List.drop a1 c1rest) ∧
    applyReactImport (c2pre ++ c2rest) =
      c2pre ++ (List.take a2 c2rest ++ sChars ", useEffect \x7d from 'react';") ++
        reSubAux braceImportG braceImportR (fun g => g ++ sChars ", useEffect \x7d from 'react';")
          (List.drop (a2 + b2) c2rest) := by
  constructor
  · unfold applyReactImport
    rw [if_pos h1]
    have := reSub_first importReactG [] (fun _ => bothHooksImport) c1pre c1rest a1 0 h2 h3 (by omega)
    simpa using this
  · unfold applyReactImport
    rw [if_neg (by simp [h5]), if_pos h6]
    exact reSub_first braceImportG braceImportR
      (fun g => g ++ sChars ", useEffect \x7d from 'react';") c2pre c2rest a2 b2 h7 h8 h9

theorem c7_react_import_branches_witness :
    containsSub (sChars "useState") (([] : Str) ++ sChars "import React from 'react';") = false ∧
    noMatchBefore importReactG [] (0 : Nat)
        (([] : Str) ++ sChars "import React from 'react';") = true ∧
    reMatchG importReactG [] (sChars "import React from 'react';") = some (26, 0) ∧
    (0 : Nat) < 26 ∧
    containsSub (sChars "useState")
        (([] : Str) ++ sChars "import \x7b useState \x7d from 'react';") = true ∧
    containsSub (sChars "useEffect")
        (([] : Str) ++ sChars "import \x7b useState \x7d from 'react';") = false ∧
    noMatchBefore braceImportG braceImportR (0 : Nat)
        (([] : Str) ++ sChars "import \x7b useState \x7d from 'react';") = true ∧
    reMatchG braceImportG braceImportR (sChars "import \x7b useState \x7d from 'react';") =
      some (18, 15) ∧
    (0 : Nat) < 18 + 15 ∧
    (applyReactImport (([] : Str) ++ sChars "import React from 'react';") =
      ([] : Str) ++ bothHooksImport ++
        reSubAux importReactG [] (fun _ => bothHooksImport)
          (List.drop 26 (sChars "import React from 'react';")) ∧
     applyReactImport (([] : Str) ++ sChars "import \x7b useState \x7d from 'react';") =
      ([] : Str) ++ (List.take 18 (sChars "import \x7b useState \x7d from 'react';") ++
          sChars ", useEffect \x7d from 'react';") ++
        reSubAux braceImportG braceImportR (fun g => g ++ sChars ", useEffect \x7d from 'react';")
          (List.drop (18 + 15) (sChars "import \x7b useState \x7d from 'react';"))) :=
  ⟨by decide, by decide, by decide, by decide, by decide, by decide, by decide, by decide, by decide,
    c7_react_import_branches [] (sChars "import React from 'react';") 26
      [] (sChars "import \x7b useState \x7d from 'react';") 18 15
      (by decide) (by decide) (by decide) (by decide) (by decide) (by decide) (by decide)
      (by decide) (by decide)⟩

/-- C8: the injected pagination-component import uses the shallower
two-`../` path exactly for the resource `Nodes` and the three-`../` path for
every other resource (one more parent-directory segment), and the injection
step inserts that line right after the matched types-import. -/
theorem c8_pagination_import_path (name : String) (pre rest : Str) (a : Nat)
    (hn : name ≠ "Nodes")
    (h1 : noMatchBefore typesImportG [] pre.length (pre ++ rest) = true)
    (h2 : reMatchG typesImportG [] rest = some (a, 0))
    (h3 : 0 < a) :
    paginationImport "Nodes" =
      sChars "import Pagination from '../../components/common/Pagination';" ∧
    paginationImport name =
      sChars "import Pagination from '../../../components/common/Pagination';" ∧
    countSub (sChars "../") (paginationImport "Nodes") + 1 =
      countSub (sChars "../") (paginationImport name) ∧
    applyTypesImport name (pre ++ rest) =
      pre ++ (List.take a rest ++ '\n' :: paginationImport name) ++
        reSubAux typesImportG [] (fun g => g ++ '\n' :: paginationImport name)
          (List.drop a rest) := by
  have hpi : paginationImport name =
      sChars "import Pagination from '../../../components/common/Pagination';" := by
    unfold paginationImport
    rw [if_neg hn]
  refine ⟨by decide, hpi, ?_, ?_⟩
  · rw [hpi]
    decide
  · unfold applyTypesImport
    have := reSub_first typesImportG [] (fun g => g ++ '\n' :: paginationImport name)
      pre rest a 0 h1 h2 (by omega)
    simpa using this

theorem c8_pagination_import_path_witness :
    ("Jobs" : String) ≠ "Nodes" ∧
    noMatchBefore typesImportG [] (0 : Nat)
        (([] : Str) ++ sChars "import \x7b Job \x7d from '../../../types';") = true ∧
    reMatchG typesImportG [] (sChars "import \x7b Job \x7d from '../../../types';") =
      some (37, 0) ∧
    (0 : Nat) < 37 ∧
    (paginationImport "Nodes" =
      sChars "import Pagination from '../../components/common/Pagination';" ∧
     paginationImport "Jobs" =
      sChars "import Pagination from '../../../components/common/Pagination';" ∧
     countSub (sChars "../") (paginationImport "Nodes") + 1 =
      countSub (sChars "../") (paginationImport "Jobs") ∧
     applyTypesImport "Jobs" (([] : Str) ++ sChars "import \x7b Job \x7d from '../../../types';") =
      ([] : Str) ++ (List.take 37 (sChars "import \x7b Job \x7d from '../../../types';") ++
          '\n' :: paginationImport "Jobs") ++
        reSubAux typesImportG [] (fun g => g ++ '\n' :: paginationImport "Jobs")
          (List.drop 37 (sChars "import \x7b Job \x7d from '../../../types';"))) :=
  ⟨by decide, by decide, by decide, by decide,
    c8_pagination_import_path "Jobs" [] (sChars "import \x7b Job \x7d from '../../../types';") 37
      (by decide) (by decide) (by decide) (by decide)⟩

theorem driverStep_errorBump (t : String × String × String) (c : Counts) (e : DriverEvent) :
    driverStep t { c with error := c.error + 1 } e =
      { driverStep t c e with error := (driverStep t c e).error + 1 } := by
  cases e with
  | missing => rfl
  | raises => rfl
  | found content =>
      simp only [driverStep]
      cases (add_pagination_to_file t.2.1 t.2.2 content).outcome <;> rfl

theorem runDriverFrom_errorBump :
    ∀ (ts : List (String × String × String)) (es : List DriverEvent) (c : Counts),
      runDriverFrom { c with error := c.error + 1 } ts es =
        { runDriverFrom c ts es with error := (runDriverFrom c ts es).error + 1 } := by
  intro ts
  induction ts with
  | nil => intro es c; rfl
  | cons t ts ih =>
      intro es c
      cases es with
      | nil => rfl
      | cons e es =>
          simp only [runDriverFrom]
          rw [driverStep_errorBump t c e]
          exact ih es (driverStep t c e)

/-- C9: a missing path, or an exception raised inside the patcher, makes the
driver increment exactly the error counter and carry on: the run over the
whole list equals the run with that entry removed, plus one error, so no
per-file failure aborts the remaining batch. -/
theorem c9_driver_isolates_failures (c : Counts) (ts1 ts2 : List (String × String × String))
    (t : String × String × String) (es1 es2 : List DriverEvent)
    (hlen : es1.length = ts1.length) :
    runDriverFrom c (ts1 ++ t :: ts2) (es1 ++ DriverEvent.missing :: es2) =
      { runDriverFrom c (ts1 ++ ts2) (es1 ++ es2) with
          error := (runDriverFrom c (ts1 ++ ts2) (es1 ++ es2)).error + 1 } ∧
    runDriverFrom c (ts1 ++ t :: ts2) (es1 ++ DriverEvent.raises :: es2) =
      { runDriverFrom c (ts1 ++ ts2) (es1 ++ es2) with
          error := (runDriverFrom c (ts1 ++ ts2) (es1 ++ es2)).error + 1 } := by
  induction ts1 generalizing es1 c with
  | nil =>
      have hes : es1 = [] := List.eq_nil_of_length_eq_zero (by simpa using hlen)
      subst hes
      simp only [List.nil_append, runDriverFrom]
      exact ⟨runDriverFrom_errorBump ts2 es2 c, runDriverFrom_errorBump ts2 es2 c⟩
  | cons t1 ts1 ih =>
      cases es1 with
      | nil => simp at hlen
      | cons e1 es1 =>
          simp only [List.cons_append, runDriverFrom]
          exact ih (driverStep t1 c e1) es1 (by simpa using hlen)

theorem c9_driver_isolates_failures_witness :
    ([DriverEvent.found []] : List DriverEvent).length =
      ([("a.tsx", "A", "a")] : List (String × String × String)).length ∧
    (runDriverFrom counts0
        ([("a.tsx", "A", "a")] ++ ("b.tsx", "B", "b") :: [("c.tsx", "C", "c")])
        ([DriverEvent.found []] ++ DriverEvent.missing :: [DriverEvent.found [] ]) =
      { runDriverFrom counts0 ([("a.tsx", "A", "a")] ++ [("c.tsx", "C", "c")])
          ([DriverEvent.found []] ++ [DriverEvent.found [] ]) with
          error := (runDriverFrom counts0 ([("a.tsx", "A", "a")] ++ [("c.tsx", "C", "c")])
            ([DriverEvent.found []] ++ [DriverEvent.found [] ])).error + 1 } ∧
     runDriverFrom counts0
        ([("a.tsx", "A", "a")] ++ ("b.tsx", "B", "b") :: [("c.tsx", "C", "c")])
        ([DriverEvent.found []] ++ DriverEvent.raises :: [DriverEvent.found [] ]) =
      { runDriverFrom counts0 ([("a.tsx", "A", "a")] ++ [("c.tsx", "C", "c")])
          ([DriverEvent.found []] ++ [DriverEvent.found [] ]) with
          error := (runDriverFrom counts0 ([("a.tsx", "A", "a")] ++ [("c.tsx", "C", "c")])
            ([DriverEvent.found []] ++ [DriverEvent.found [] ])).error + 1 }) :=
  ⟨by decide,
    c9_driver_isolates_failures counts0 [("a.tsx", "A", "a")] [("c.tsx", "C", "c")]
      ("b.tsx", "B", "b") [DriverEvent.found []] [DriverEvent.found [] ] (by decide)⟩

theorem runDriverFrom_nil_events :
    ∀ (ts : List (String × String × String)) (c : Counts), runDriverFrom c ts [] = c := by
  intro ts c
  cases ts <;> rfl

theorem sumCounts_run :
    ∀ (ts : List (String × String × String)) (es : List DriverEvent) (c : Counts),
      es.length = ts.length →
      (runDriverFrom c ts es).success + (runDriverFrom c ts es).skip +
          (runDriverFrom c ts es).error =
        c.success + c.skip + c.error + ts.length := by
  intro ts
  induction ts with
  | nil => intro es c _; simp [runDriverFrom]
  | cons t ts ih =>
      intro es c h
      cases es with
      | nil => simp at h
      | cons e es =>
          simp only [runDriverFrom, List.length_cons]
          rw [ih es (driverStep t c e) (by simpa using h)]
          have hstep : (driverStep t c e).success + (driverStep t c e).skip +
              (driverStep t c e).error = c.success + c.skip + c.error + 1 := by
            cases e with
            | missing => simp [driverStep]; omega
            | raises => simp [driverStep]; omega
            | found content =>
                simp only [driverStep]
                cases (add_pagination_to_file t.2.1 t.2.2 content).outcome <;> simp <;> omega
          omega

theorem run_take_drop :
    ∀ (n : Nat) (ts : List (String × String × String)) (es : List DriverEvent) (c : Counts),
      runDriverFrom c ts es =
        runDriverFrom (runDriverFrom c (ts.take n) (es.take n)) (ts.drop n) (es.drop n) := by
  intro n
  induction n with
  | zero => intro ts es c; simp [runDriverFrom]
  | succ n ih =>
      intro ts es c
      cases ts with
      | nil => simp [runDriverFrom]
      | cons t ts =>
          cases es with
          | nil => simp [runDriverFrom_nil_events]
          | cons e es =>
              simp only [List.take_succ_cons, List.drop_succ_cons, runDriverFrom]
              exact ih ts es (driverStep t c e)

theorem countsLe_run :
    ∀ (ts : List (String × String × String)) (es : List DriverEvent) (c : Counts),
      countsLe c (runDriverFrom c ts es) := by
  intro ts
  induction ts with
  | nil => intro es c; exact ⟨Nat.le_refl _, Nat.le_refl _, Nat.le_refl _⟩
  | cons t ts ih =>
      intro es c
      cases es with
      | nil => exact ⟨Nat.le_refl _, Nat.le_refl _, Nat.le_refl _⟩
      | cons e es =>
          have h1 : countsLe c (driverStep t c e) := by
            cases e with
            | missing => exact ⟨Nat.le_refl _, Nat.le_refl _, Nat.le_succ _⟩
            | raises => exact ⟨Nat.le_refl _, Nat.le_refl _, Nat.le_succ _⟩
            | found content =>
                simp only [driverStep]
                cases (add_pagination_to_file t.2.1 t.2.2 content).outcome
                · exact ⟨Nat.le_succ _, Nat.le_refl _, Nat.le_refl _⟩
                · exact ⟨Nat.le_refl _, Nat.le_succ _, Nat.le_refl _⟩
          have h2 := ih es (driverStep t c e)
          simp only [runDriverFrom]
          exact ⟨Nat.le_trans h1.1 h2.1, Nat.le_trans h1.2.1 h2.2.1, Nat.le_trans h1.2.2 h2.2.2⟩

/-- C10: over the hard-coded eight-entry list, every driver iteration
increments exactly one counter: with a full environment the three counters
sum to the list length (8), and each counter is non-decreasing along the
run (every prefix's counters are bounded by the final ones). -/
theorem c10_counters_partition (events : List DriverEvent) (n : Nat)
    (h : events.length = files_to_process.length) :
    (runDriverFrom counts0 files_to_process events).success +
        (runDriverFrom counts0 files_to_process events).skip +
        (runDriverFrom counts0 files_to_process events).error = files_to_process.length ∧
    files_to_process.length = 8 ∧
    countsLe (runDriverFrom counts0 (files_to_process.take n) (events.take n))
      (runDriverFrom counts0 files_to_process events) := by
  refine ⟨?_, by decide, ?_⟩
  · rw [sumCounts_run files_to_process events counts0 h]
    simp [counts0]
  · rw [run_take_drop n files_to_process events counts0]
    exact countsLe_run _ _ _

theorem c10_counters_partition_witness :
    (List.replicate 8 DriverEvent.missing).length = files_to_process.length ∧
    ((runDriverFrom counts0 files_to_process (List.replicate 8 DriverEvent.missing)).success +
        (runDriverFrom counts0 files_to_process (List.replicate 8 DriverEvent.missing)).skip +
        (runDriverFrom counts0 files_to_process (List.replicate 8 DriverEvent.missing)).error =
      files_to_process.length ∧
     files_to_process.length = 8 ∧
     countsLe (runDriverFrom counts0 (files_to_process.take 3)
        ((List.replicate 8 DriverEvent.missing).take 3))
       (runDriverFrom counts0 files_to_process (List.replicate 8 DriverEvent.missing))) :=
  ⟨by decide, c10_counters_partition (List.replicate 8 DriverEvent.missing) 3 (by decide)⟩
